import Mathlib

/-!
Shallow embedding of the core of the `rag-doc-qa` repository: the ingestion
pipeline (`rag_inngest_pdf` / `_upsert` in `src/main.py`), the query pipeline
(`rag_query_pdf` / `_search` in `src/main.py`) and the vector store adapter
(`QdrantStorage` in `src/vector_db.py`).

Modelling conventions:
* Embedding vectors are floats in the source; no claim inspects their numeric
  values, so the vector type is an arbitrary type parameter `V`.
* The qdrant client is external; its per-point replace-or-insert semantics
  (`client.upsert`) is modelled by `upsertPoint`, and the nearest-neighbour
  selection of `client.query_points` is modelled by an arbitrary function
  parameter returning the retrieved points.
* Python `IndexError` (raised while building the `PointStruct` list when a
  parallel sequence is too short) is modelled with `Except`.
* `uuid.uuid5(uuid.NAMESPACE_URL, s)` is a deterministic function of the
  string `s`; it is modelled by an arbitrary function parameter `u5`.
-/

namespace RagDocQA

/-- Distance metric of a collection (`Distance.COSINE` in `src/vector_db.py`). -/
inductive Distance where
  | cosine
deriving DecidableEq, Repr

/-- Collection configuration: `VectorParams(size=dim, distance=Distance.COSINE)`. -/
structure CollectionCfg where
  dim : Nat
  distance : Distance
deriving DecidableEq, Repr

/-- A qdrant point payload.  The payload dict may lack the `"text"` or
`"source"` key, hence `Option` fields (`payload.get("text", "")` in
`QdrantStorage.search`). -/
structure Payload where
  source : Option String
  text : Option String
deriving DecidableEq, Repr

/-- A stored point `(id, vector, payload)`; `payload` itself may be absent
(`getattr(r, "payload", None) or {}` in `QdrantStorage.search`). -/
structure StoredPoint (V : Type) where
  id : String
  vector : V
  payload : Option Payload
deriving DecidableEq, Repr

/-- The state of the qdrant server: named collections and the points of the
single collection `"docs"` used by the program. -/
structure Store (V : Type) where
  collections : List (String × CollectionCfg)
  points : List (StoredPoint V)
deriving DecidableEq, Repr

variable {V : Type}

/-- A store with no collections and no points. -/
def emptyStore : Store V := ⟨[], []⟩

/-- Does a collection with this name exist (`client.collection_exists`)? -/
def hasCollection (st : Store V) (name : String) : Bool :=
  (st.collections.map Prod.fst).contains name

/-- `QdrantStorage.__init__`: create the collection if missing, with the given
dimension and cosine distance; an existing collection is left untouched
(`src/vector_db.py` lines 8–26).  Both call sites use the defaults
`collection="docs"`, `dim=768`. -/
def qdrantInit (st : Store V) (collection : String) (dim : Nat) : Store V :=
  if hasCollection st collection then st
  else { st with collections := st.collections ++ [(collection, ⟨dim, Distance.cosine⟩)] }

/-- Replace-or-insert of one point by id: the semantics qdrant gives a single
`PointStruct` inside `client.upsert` (spec §3: at most one live point per id). -/
def upsertPoint (pts : List (StoredPoint V)) (p : StoredPoint V) : List (StoredPoint V) :=
  if p.id ∈ pts.map (fun q => q.id) then
    pts.map (fun q => if q.id = p.id then p else q)
  else pts ++ [p]

/-- The id multiset evolution of a batch of `upsertPoint`s: an id already
present leaves the id list unchanged (replace), a fresh id is appended. -/
def foldIds (ids0 new : List String) : List String :=
  new.foldl (fun acc i => if i ∈ acc then acc else acc ++ [i]) ids0

/-- Python exception surfaced by the model. -/
inductive PyError where
  | indexError
deriving DecidableEq, Repr

/-- Left-to-right evaluation of a Python list comprehension whose body may
raise: the first raised exception aborts the whole comprehension. -/
def exceptMap {α β : Type} (f : α → Except PyError β) : List α → Except PyError (List β)
  | [] => Except.ok []
  | x :: xs =>
    match f x with
    | Except.error e => Except.error e
    | Except.ok y =>
      match exceptMap f xs with
      | Except.error e => Except.error e
      | Except.ok ys => Except.ok (y :: ys)

/-- The point list comprehension of `QdrantStorage.upsert`:
`[PointStruct(id=ids[i], vector=vectors[i], payload=payloads[i]) for i in range(len(ids))]`.
Indexing a too-short parallel sequence raises `IndexError` before anything is
sent to the client. -/
def buildPoints (ids : List String) (vectors : List V) (payloads : List Payload) :
    Except PyError (List (StoredPoint V)) :=
  exceptMap (fun i =>
    match ids[i]?, vectors[i]?, payloads[i]? with
    | some a, some v, some p => Except.ok (⟨a, v, some p⟩ : StoredPoint V)
    | _, _, _ => Except.error PyError.indexError)
    (List.range ids.length)

/-- `QdrantStorage.upsert` (`src/vector_db.py` lines 28–30): build the point
list, then hand all points to the client in one call; a raised `IndexError`
reaches the caller before the client is contacted. -/
def QdrantStorage.upsert (st : Store V) (ids : List String) (vectors : List V)
    (payloads : List Payload) : Except PyError (Store V) :=
  match buildPoints ids vectors payloads with
  | Except.error e => Except.error e
  | Except.ok pts => Except.ok { st with points := pts.foldl upsertPoint st.points }

/-- Effective payload of a retrieved point: `getattr(r, "payload", None) or {}`. -/
def effPayload (p : StoredPoint V) : Payload :=
  p.payload.getD ⟨none, none⟩

/-- `payload.get("text", "")` in `QdrantStorage.search`. -/
def textOf (p : StoredPoint V) : String :=
  (effPayload p).text.getD ""

/-- `payload.get("source", "")` in `QdrantStorage.search`. -/
def sourceOf (p : StoredPoint V) : String :=
  (effPayload p).source.getD ""

/-- The result-processing loop of `QdrantStorage.search`
(`src/vector_db.py` lines 43–54): keep a point's text only when non-empty,
collect the kept points' sources into a set (modelled as a duplicate-free
list). -/
def searchStep (acc : List String × List String) (r : StoredPoint V) :
    List String × List String :=
  let text := textOf r
  let source := sourceOf r
  if text ≠ "" then
    (acc.1 ++ [text], if source ∈ acc.2 then acc.2 else acc.2 ++ [source])
  else acc

/-- The `contexts, sources` accumulation of `QdrantStorage.search` starting
from `contexts = []`, `sources = set()`. -/
def searchLoop (results : List (StoredPoint V)) : List String × List String :=
  results.foldl searchStep ([], [])

/-- `str(uuid.uuid5(uuid.NAMESPACE_URL, source_id + ":" + str(i)))`
(`src/main.py` line 67), for an arbitrary deterministic `u5`. -/
def pointId (u5 : String → String) (source_id : String) (i : Nat) : String :=
  u5 (source_id ++ ":" ++ toString i)

/-- The id list of `_upsert`: `[... for i in range(len(chunks))]`. -/
def upsertIds (u5 : String → String) (source_id : String) (n : Nat) : List String :=
  (List.range n).map (pointId u5 source_id)

/-- `RAGChunkAndSrc` from `custom_types` (fields as used in `src/main.py`). -/
structure RAGChunkAndSrc where
  chunks : List String
  source_id : String
deriving DecidableEq, Repr

/-- `RAGUpsertResult` from `custom_types` (field as used in `src/main.py`). -/
structure RAGUpsertResult where
  inngested : Nat
deriving DecidableEq, Repr

/-- `RAGSearchResult` from `custom_types` (fields as used in `src/main.py`). -/
structure RAGSearchResult where
  contexts : List String
  sources : List String
deriving DecidableEq, Repr

/-- Number of calls issued to the Embedding Client (`embed_texts`) and to the
Vector Store write path (`QdrantStorage.upsert`). -/
structure Calls where
  embedTexts : Nat
  upsertCalls : Nat
deriving DecidableEq, Repr

/-- Result of running the `_upsert` step body: its returned value (or raised
exception), the store it leaves behind, and the collaborator calls it issued. -/
structure UpsertEffect (V : Type) where
  result : Except PyError RAGUpsertResult
  store : Store V
  calls : Calls
deriving Repr

/-- `_upsert` in `rag_inngest_pdf` (`src/main.py` lines 58–71): on empty
chunks return `RAGUpsertResult(inngested=0)` without touching any
collaborator; otherwise embed all chunks in one batch, derive the ids and
payloads, construct `QdrantStorage()` (which may create the collection) and
upsert. -/
def rag_upsert (u5 : String → String) (embed_texts : List String → List V)
    (st : Store V) (inp : RAGChunkAndSrc) : UpsertEffect V :=
  let chunks := inp.chunks
  let source_id := inp.source_id
  if chunks.isEmpty then
    ⟨Except.ok ⟨0⟩, st, ⟨0, 0⟩⟩
  else
    let vecs := embed_texts chunks
    let ids := upsertIds u5 source_id chunks.length
    let payloads := (List.range chunks.length).map
      (fun i => ({ source := some source_id, text := chunks[i]? } : Payload))
    let st1 := qdrantInit st "docs" 768
    match QdrantStorage.upsert st1 ids vecs payloads with
    | Except.error e => ⟨Except.error e, st1, ⟨1, 1⟩⟩
    | Except.ok st2 => ⟨Except.ok ⟨chunks.length⟩, st2, ⟨1, 1⟩⟩

/-- `top_k = int(ctx.event.data.get("top_k", 5))` (`src/main.py` line 96):
missing field defaults to 5, a present field is used as given. -/
def topKOf (data_top_k : Option Int) : Int :=
  data_top_k.getD 5

/-- `_search` in `rag_query_pdf` (`src/main.py` lines 89–93): embed the
question (single-item batch; `[0]` raises if the batch comes back empty),
construct `QdrantStorage()` afresh, query the client and run the result loop.
`clientQuery` models the external `client.query_points` nearest-neighbour
call. -/
def rag_search (embed_texts : List String → List V)
    (clientQuery : Store V → V → Int → List (StoredPoint V))
    (st : Store V) (question : String) (top_k : Int) :
    Except PyError (RAGSearchResult × Store V) :=
  match (embed_texts [question])[0]? with
  | none => Except.error PyError.indexError
  | some query_vec =>
    let store := qdrantInit st "docs" 768
    let found := searchLoop (clientQuery store query_vec top_k)
    Except.ok (⟨found.1, found.2⟩, store)

/-- `"\n\n".join(f"- {c}" for c in found.contexts)` (`src/main.py` line 100). -/
def contextBlock (contexts : List String) : String :=
  String.intercalate "\n\n" (contexts.map (fun c => "- " ++ c))

/-- The prompt assembled in `rag_query_pdf` (`src/main.py` lines 101–107). -/
def userContent (contexts : List String) (question : String) : String :=
  "Use the following context to answer the question.\n\n" ++
  "Context:\n" ++ contextBlock contexts ++ "\n\n" ++
  "Question: " ++ question ++ "\n" ++
  "Answer concisely using the context above."

/-- The final result dict of `rag_query_pdf`
(`{"answer": ..., "sources": ..., "num_contexts": ...}`). -/
structure QueryResult where
  answer : String
  sources : List String
  num_contexts : Nat
deriving DecidableEq, Repr

/-- `rag_query_pdf` (`src/main.py` lines 84–111): read `top_k`, run the
embed-and-search step, assemble the prompt, run generation, trim, and build
the result dict.  `generate` models the external `Settings.llm.acomplete`. -/
def rag_query_pdf (embed_texts : List String → List V)
    (clientQuery : Store V → V → Int → List (StoredPoint V))
    (generate : String → String)
    (st : Store V) (question : String) (data_top_k : Option Int) :
    Except PyError (QueryResult × Store V) :=
  let top_k := topKOf data_top_k
  match rag_search embed_texts clientQuery st question top_k with
  | Except.error e => Except.error e
  | Except.ok (found, store) =>
    let content := userContent found.contexts question
    let answer_text := (generate content).trim
    Except.ok (⟨answer_text, found.sources, found.contexts.length⟩, store)

/-- Modelled from the spec: the Step Executor (the inngest substrate behind
`ctx.step.run`, §6 of the spec) persists each step's output keyed by
`(run_id, step_name)`.  Its memo table is a list of recorded outputs. -/
def StepMemo (α : Type) : Type :=
  List ((String × String) × α)

/-- Modelled from the spec: look up the recorded output of `(run_id, step_name)`. -/
def lookupStep {α : Type} (memo : StepMemo α) (key : String × String) : Option α :=
  (memo.find? (fun e => e.1.1 = key.1 ∧ e.1.2 = key.2)).map (fun e => e.2)

/-- Modelled from the spec: `run_step(run_id, step_name, compute_fn)` of the
Step Executor — replay the recorded output if present (issuing no calls and
leaving the world state untouched), otherwise run the step body once and
record its output. -/
def run_step {α σ : Type} (memo : StepMemo α) (run_id step_name : String)
    (compute : σ → α × σ) (st : σ) : α × σ × StepMemo α :=
  match lookupStep memo (run_id, step_name) with
  | some out => (out, st, memo)
  | none =>
    let (out, st2) := compute st
    (out, st2, ((run_id, step_name), out) :: memo)

/-- The `"embed-and-upsert"` step body as handed to the Step Executor
(`src/main.py` line 74), with the world state = store plus cumulative
collaborator call counters. -/
def upsertStepCompute (u5 : String → String) (embed_texts : List String → List V)
    (inp : RAGChunkAndSrc) :
    Store V × Calls → Except PyError RAGUpsertResult × (Store V × Calls) :=
  fun w =>
    let e := rag_upsert u5 embed_texts w.1 inp
    (e.result, (e.store, ⟨w.2.embedTexts + e.calls.embedTexts,
                          w.2.upsertCalls + e.calls.upsertCalls⟩))

/-- Number of live points whose payload source is `s`, extracted the way the
program reads payloads back. -/
def livePoints (s : String) (st : Store V) : Nat :=
  (st.points.filter (fun p => sourceOf p = s)).length

/-! ### Helper lemmas -/

theorem qdrantInit_points (st : Store V) (c : String) (d : Nat) :
    (qdrantInit st c d).points = st.points := by
  unfold qdrantInit
  split <;> rfl

theorem hasCollection_eq_of_collections {st1 st2 : Store V} (n : String)
    (h : st1.collections = st2.collections) :
    hasCollection st1 n = hasCollection st2 n := by
  unfold hasCollection
  rw [h]

theorem hasCollection_qdrantInit (st : Store V) (c : String) (d : Nat) :
    hasCollection (qdrantInit st c d) c = true := by
  unfold qdrantInit
  split
  · next h => exact h
  · next h =>
    simp [hasCollection, List.map_append]

theorem map_upsertPoint_id (pts : List (StoredPoint V)) (p : StoredPoint V) :
    (upsertPoint pts p).map (fun q => q.id) =
      if p.id ∈ pts.map (fun q => q.id) then pts.map (fun q => q.id)
      else pts.map (fun q => q.id) ++ [p.id] := by
  unfold upsertPoint
  split
  · next h =>
    rw [List.map_map]
    apply List.map_congr_left
    intro q _
    simp only [Function.comp]
    split
    · next hq => rw [← hq]
    · rfl
  · next h =>
    simp

theorem foldl_upsertPoint_map_id (ps : List (StoredPoint V)) :
    ∀ pts : List (StoredPoint V),
      ((ps.foldl upsertPoint pts).map (fun q => q.id)) =
        foldIds (pts.map (fun q => q.id)) (ps.map (fun q => q.id)) := by
  induction ps with
  | nil => intro pts; rfl
  | cons p ps ih =>
    intro pts
    simp only [List.foldl_cons, List.map_cons]
    rw [ih (upsertPoint pts p)]
    unfold foldIds
    simp only [List.foldl_cons]
    rw [map_upsertPoint_id pts p]

theorem mem_upsertPoint {pts : List (StoredPoint V)} {p q : StoredPoint V}
    (h : q ∈ upsertPoint pts p) : q ∈ pts ∨ q = p := by
  unfold upsertPoint at h
  split at h
  · rcases List.mem_map.mp h with ⟨r, hr, hrq⟩
    by_cases hid : r.id = p.id
    · right
      rw [if_pos hid] at hrq
      exact hrq.symm
    · left
      rw [if_neg hid] at hrq
      exact hrq ▸ hr
  · rcases List.mem_append.mp h with h1 | h1
    · exact Or.inl h1
    · right
      simpa using h1

theorem mem_foldl_upsertPoint {ps : List (StoredPoint V)} {q : StoredPoint V} :
    ∀ {pts : List (StoredPoint V)}, q ∈ ps.foldl upsertPoint pts → q ∈ pts ∨ q ∈ ps := by
  induction ps with
  | nil => intro pts h; exact Or.inl h
  | cons p ps ih =>
    intro pts h
    simp only [List.foldl_cons] at h
    rcases ih h with h1 | h1
    · rcases mem_upsertPoint h1 with h2 | h2
      · exact Or.inl h2
      · exact Or.inr (by simp [h2])
    · exact Or.inr (List.mem_cons_of_mem _ h1)

theorem foldIds_nodup (new : List String) :
    ∀ ids0 : List String, new.Nodup →
      foldIds ids0 new = ids0 ++ new.filter (fun i => decide (i ∉ ids0)) := by
  induction new with
  | nil => intro ids0 _; simp [foldIds]
  | cons x xs ih =>
    intro ids0 h
    rcases List.nodup_cons.mp h with ⟨hx, hxs⟩
    unfold foldIds
    simp only [List.foldl_cons]
    by_cases hmem : x ∈ ids0
    · rw [if_pos hmem]
      have hrec := ih ids0 hxs
      unfold foldIds at hrec
      rw [hrec]
      simp [List.filter_cons, hmem]
    · rw [if_neg hmem]
      have hrec := ih (ids0 ++ [x]) hxs
      unfold foldIds at hrec
      rw [hrec]
      have hfc : xs.filter (fun i => decide (i ∉ ids0 ++ [x])) =
          xs.filter (fun i => decide (i ∉ ids0)) := by
        apply List.filter_congr
        intro a ha
        have hax : a ≠ x := fun e => hx (e ▸ ha)
        simp [List.mem_append, hax]
      rw [hfc]
      simp [List.filter_cons, hmem, List.append_assoc]

theorem mem_foldIds {x : String} (l : List String) :
    ∀ ids0 : List String, (x ∈ foldIds ids0 l ↔ x ∈ ids0 ∨ x ∈ l) := by
  induction l with
  | nil => intro ids0; simp [foldIds]
  | cons y ys ih =>
    intro ids0
    unfold foldIds
    simp only [List.foldl_cons]
    by_cases hmem : y ∈ ids0
    · rw [if_pos hmem]
      have hrec := ih ids0
      unfold foldIds at hrec
      rw [hrec]
      constructor
      · rintro (h | h)
        · exact Or.inl h
        · exact Or.inr (List.mem_cons_of_mem _ h)
      · rintro (h | h)
        · exact Or.inl h
        · rcases List.mem_cons.mp h with h | h
          · exact Or.inl (h ▸ hmem)
          · exact Or.inr h
    · rw [if_neg hmem]
      have hrec := ih (ids0 ++ [y])
      unfold foldIds at hrec
      rw [hrec]
      simp [List.mem_append, List.mem_cons, or_assoc]

theorem length_filter_not_lt (n1 : Nat) :
    ∀ n2 : Nat, ((List.range n2).filter (fun i => decide (¬ i < n1))).length = n2 - n1 := by
  intro n2
  induction n2 with
  | zero => simp
  | succ n ih =>
    rw [List.range_succ, List.filter_append, List.length_append, ih]
    by_cases h : n < n1
    · simp only [List.filter_cons, List.filter_nil]
      rw [if_neg (by simpa using h)]
      simp only [List.length_nil]
      omega
    · simp only [List.filter_cons, List.filter_nil]
      rw [if_pos (by simpa using h)]
      simp only [List.length_cons, List.length_nil]
      omega

theorem exceptMap_ok_of_forall {α β : Type} (f : α → Except PyError β) (g : α → β) :
    ∀ l : List α, (∀ x ∈ l, f x = Except.ok (g x)) →
      exceptMap f l = Except.ok (l.map g) := by
  intro l
  induction l with
  | nil => intro _; rfl
  | cons x xs ih =>
    intro h
    have hx := h x (List.mem_cons_self x xs)
    have hxs := ih (fun y hy => h y (List.mem_cons_of_mem x hy))
    simp [exceptMap, hx, hxs]

theorem exceptMap_ok_forall {α β : Type} (f : α → Except PyError β) :
    ∀ (l : List α) (ys : List β), exceptMap f l = Except.ok ys →
      ∀ x ∈ l, ∃ y, f x = Except.ok y := by
  intro l
  induction l with
  | nil => intro ys _ x hx; cases hx
  | cons a as ih =>
    intro ys h x hx
    rcases hfa : f a with e | y
    · rw [exceptMap, hfa] at h
      cases h
    · rcases hrec : exceptMap f as with e | zs
      · rw [exceptMap, hfa, hrec] at h
        cases h
      · rcases List.mem_cons.mp hx with hxa | hxas
        · exact ⟨y, hxa ▸ hfa⟩
        · exact ih zs hrec x hxas

theorem exceptMap_congr {α β : Type} (f g : α → Except PyError β) :
    ∀ l : List α, (∀ x ∈ l, f x = g x) → exceptMap f l = exceptMap g l := by
  intro l
  induction l with
  | nil => intro _; rfl
  | cons x xs ih =>
    intro h
    have hx := h x (List.mem_cons_self x xs)
    have hxs := ih (fun y hy => h y (List.mem_cons_of_mem x hy))
    rw [exceptMap, exceptMap, hx, hxs]

theorem map_getD_range {α : Type} (l : List α) (d : α) :
    (List.range l.length).map (fun i => l.getD i d) = l := by
  induction l with
  | nil => rfl
  | cons a l ih =>
    rw [List.length_cons, List.range_succ_eq_map, List.map_cons, List.map_map]
    simp only [Function.comp_def, List.getD_cons_zero, List.getD_cons_succ]
    rw [ih]

theorem buildPoints_ok [Inhabited V] (ids : List String) (vectors : List V)
    (payloads : List Payload) (hv : ids.length ≤ vectors.length)
    (hp : ids.length ≤ payloads.length) :
    buildPoints ids vectors payloads =
      Except.ok ((List.range ids.length).map (fun i =>
        ({ id := ids.getD i "", vector := vectors.getD i default,
           payload := some (payloads.getD i ⟨none, none⟩) } : StoredPoint V))) := by
  unfold buildPoints
  apply exceptMap_ok_of_forall
  intro i hi
  have hi2 := List.mem_range.mp hi
  have h1 : ids[i]? = some (ids.getD i "") := by
    rw [List.getD_eq_getElem?_getD, List.getElem?_eq_getElem hi2]
    rfl
  have h2 : vectors[i]? = some (vectors.getD i default) := by
    have hlt : i < vectors.length := lt_of_lt_of_le hi2 hv
    rw [List.getD_eq_getElem?_getD, List.getElem?_eq_getElem hlt]
    rfl
  have h3 : payloads[i]? = some (payloads.getD i ⟨none, none⟩) := by
    have hlt : i < payloads.length := lt_of_lt_of_le hi2 hp
    rw [List.getD_eq_getElem?_getD, List.getElem?_eq_getElem hlt]
    rfl
  rw [h1, h2, h3]

theorem buildPoints_short (ids : List String) (vectors : List V)
    (payloads : List Payload)
    (h : vectors.length < ids.length ∨ payloads.length < ids.length) :
    buildPoints ids vectors payloads = Except.error PyError.indexError := by
  rcases hres : buildPoints ids vectors payloads with e | pts
  · cases e
    rfl
  · exfalso
    rcases h with h | h
    · rcases exceptMap_ok_forall _ _ _ hres vectors.length
        (List.mem_range.mpr h) with ⟨y, hy⟩
      rw [List.getElem?_eq_none (le_refl vectors.length)] at hy
      rcases hid : ids[vectors.length]? with _ | a <;> rw [hid] at hy <;>
        rcases hpl : payloads[vectors.length]? with _ | p <;> rw [hpl] at hy <;>
        cases hy
    · rcases exceptMap_ok_forall _ _ _ hres payloads.length
        (List.mem_range.mpr h) with ⟨y, hy⟩
      rw [List.getElem?_eq_none (le_refl payloads.length)] at hy
      rcases hid : ids[payloads.length]? with _ | a <;> rw [hid] at hy <;>
        rcases hv : vectors[payloads.length]? with _ | v <;> rw [hv] at hy <;>
        cases hy

theorem buildPoints_take (ids : List String) (vectors : List V)
    (payloads : List Payload) :
    buildPoints ids vectors payloads =
      buildPoints ids (vectors.take ids.length) (payloads.take ids.length) := by
  unfold buildPoints
  apply exceptMap_congr
  intro i hi
  have hi2 := List.mem_range.mp hi
  rw [List.getElem?_take, if_pos hi2, List.getElem?_take, if_pos hi2]

theorem searchLoop_foldl (results : List (StoredPoint V)) :
    ∀ cs ss : List String,
      results.foldl searchStep (cs, ss) =
        (cs ++ (results.filter (fun r => decide (textOf r ≠ ""))).map textOf,
         foldIds ss ((results.filter (fun r => decide (textOf r ≠ ""))).map sourceOf)) := by
  induction results with
  | nil => intro cs ss; simp [foldIds]
  | cons r rs ih =>
    intro cs ss
    simp only [List.foldl_cons]
    by_cases h : textOf r = ""
    · have hstep : searchStep (cs, ss) r = (cs, ss) := by
        simp [searchStep, h]
      have hfil : (r :: rs).filter (fun x => decide (textOf x ≠ "")) =
          rs.filter (fun x => decide (textOf x ≠ "")) := by
        simp [List.filter_cons, h]
      rw [hstep, ih cs ss, hfil]
    · have hstep : searchStep (cs, ss) r =
          (cs ++ [textOf r], if sourceOf r ∈ ss then ss else ss ++ [sourceOf r]) := by
        simp [searchStep, h]
      have hfil : (r :: rs).filter (fun x => decide (textOf x ≠ "")) =
          r :: rs.filter (fun x => decide (textOf x ≠ "")) := by
        simp [List.filter_cons, h]
      rw [hstep, ih, hfil]
      simp [foldIds, List.foldl_cons, List.append_assoc]

theorem searchLoop_eq (results : List (StoredPoint V)) :
    searchLoop results =
      ((results.filter (fun r => decide (textOf r ≠ ""))).map textOf,
       foldIds [] ((results.filter (fun r => decide (textOf r ≠ ""))).map sourceOf)) := by
  unfold searchLoop
  rw [searchLoop_foldl results [] []]
  rfl

theorem rag_upsert_spec [Inhabited V] (u5 : String → String)
    (embed_texts : List String → List V) (st : Store V) (inp : RAGChunkAndSrc)
    (hne : inp.chunks ≠ [])
    (hlen : (embed_texts inp.chunks).length = inp.chunks.length) :
    (rag_upsert u5 embed_texts st inp).result = Except.ok ⟨inp.chunks.length⟩ ∧
    (rag_upsert u5 embed_texts st inp).calls = ⟨1, 1⟩ ∧
    (rag_upsert u5 embed_texts st inp).store.collections =
      (qdrantInit st "docs" 768).collections ∧
    ((rag_upsert u5 embed_texts st inp).store.points.map (fun q => q.id)) =
      foldIds (st.points.map (fun q => q.id))
        (upsertIds u5 inp.source_id inp.chunks.length) ∧
    (∀ p ∈ (rag_upsert u5 embed_texts st inp).store.points,
      p ∈ st.points ∨ sourceOf p = inp.source_id) := by
  have hfalse : inp.chunks.isEmpty = false := List.isEmpty_eq_false.mpr hne
  have hids_len : (upsertIds u5 inp.source_id inp.chunks.length).length
      = inp.chunks.length := by
    simp [upsertIds]
  have hpl_len : ((List.range inp.chunks.length).map (fun i =>
      ({ source := some inp.source_id, text := inp.chunks[i]? } : Payload))).length
      = inp.chunks.length := by
    simp
  obtain ⟨pts, hbp, hmapid, hsrc⟩ :
      ∃ pts : List (StoredPoint V),
        buildPoints (upsertIds u5 inp.source_id inp.chunks.length) (embed_texts inp.chunks)
          ((List.range inp.chunks.length).map (fun i =>
            ({ source := some inp.source_id, text := inp.chunks[i]? } : Payload))) =
          Except.ok pts ∧
        pts.map (fun q => q.id) = upsertIds u5 inp.source_id inp.chunks.length ∧
        (∀ p ∈ pts, sourceOf p = inp.source_id) := by
    have hb := buildPoints_ok (upsertIds u5 inp.source_id inp.chunks.length)
        (embed_texts inp.chunks)
        ((List.range inp.chunks.length).map (fun i =>
          ({ source := some inp.source_id, text := inp.chunks[i]? } : Payload)))
        (le_of_eq (by rw [hids_len, hlen]))
        (le_of_eq (by rw [hids_len, hpl_len]))
    refine ⟨_, hb, ?_, ?_⟩
    · rw [List.map_map]
      exact map_getD_range (upsertIds u5 inp.source_id inp.chunks.length) ""
    · intro p hp
      rcases List.mem_map.mp hp with ⟨i, hi, hpeq⟩
      have hi2 : i < inp.chunks.length := by
        have := List.mem_range.mp hi
        omega
      have hplget : ((List.range inp.chunks.length).map (fun j =>
          ({ source := some inp.source_id, text := inp.chunks[j]? } : Payload))).getD i
          ⟨none, none⟩ =
          ({ source := some inp.source_id, text := inp.chunks[i]? } : Payload) := by
        rw [List.getD_eq_getElem?_getD, List.getElem?_map, List.getElem?_range hi2]
        rfl
      rw [← hpeq]
      simp only [sourceOf, effPayload, Option.getD_some]
      rw [hplget]
      rfl
  have hup : QdrantStorage.upsert (qdrantInit st "docs" 768)
      (upsertIds u5 inp.source_id inp.chunks.length)
      (embed_texts inp.chunks)
      ((List.range inp.chunks.length).map (fun i =>
        ({ source := some inp.source_id, text := inp.chunks[i]? } : Payload))) =
      Except.ok { qdrantInit st "docs" 768 with
        points := pts.foldl upsertPoint (qdrantInit st "docs" 768).points } := by
    unfold QdrantStorage.upsert
    rw [hbp]
  refine ⟨?_, ?_, ?_, ?_, ?_⟩
  · simp [rag_upsert, hfalse, hup]
  · simp [rag_upsert, hfalse, hup]
  · simp [rag_upsert, hfalse, hup]
  · simp only [rag_upsert, hfalse, Bool.false_eq_true, if_false, hup]
    rw [foldl_upsertPoint_map_id, qdrantInit_points, hmapid]
  · intro p hp
    simp only [rag_upsert, hfalse, Bool.false_eq_true, if_false, hup] at hp
    rcases mem_foldl_upsertPoint hp with h | h
    · rw [qdrantInit_points] at h
      exact Or.inl h
    · exact Or.inr (hsrc p h)

theorem upsertIds_nodup (u5 : String → String) (s : String) (n : Nat)
    (hinj : ∀ a, a < n → ∀ b, b < n → pointId u5 s a = pointId u5 s b → a = b) :
    (upsertIds u5 s n).Nodup := by
  unfold upsertIds
  refine List.Nodup.map_on ?_ (List.nodup_range n)
  intro x hx y hy hxy
  exact hinj x (List.mem_range.mp hx) y (List.mem_range.mp hy) hxy

theorem mem_upsertIds_iff (u5 : String → String) (s : String) (n1 n2 i : Nat)
    (hi : i < n2)
    (hinj : ∀ a, a < max n1 n2 → ∀ b, b < max n1 n2 →
      pointId u5 s a = pointId u5 s b → a = b) :
    (pointId u5 s i ∈ upsertIds u5 s n1 ↔ i < n1) := by
  unfold upsertIds
  constructor
  · intro h
    rcases List.mem_map.mp h with ⟨j, hj, hji⟩
    have hj2 := List.mem_range.mp hj
    have hje : j = i := hinj j (by omega) i (by omega) hji
    omega
  · intro h
    exact List.mem_map.mpr ⟨i, List.mem_range.mpr h, rfl⟩

/-- C1 (amended): starting from an empty store, ingesting `source_id = s` with
chunk list `cs1` and then re-ingesting the same `s` with chunk list `cs2`
(two fresh runs) leaves the store with exactly `max cs1.length cs2.length`
live points for `s`: reused indices are overwritten, but when the second
document yields fewer chunks, the stale points at the surplus indices of the
first ingestion remain. -/
theorem C1_reingestion_live_points {V : Type} [Inhabited V] (u5 : String → String)
    (embed1 embed2 : List String → List V) (s : String) (cs1 cs2 : List String)
    (h1 : cs1 ≠ []) (h2 : cs2 ≠ [])
    (hlen1 : (embed1 cs1).length = cs1.length)
    (hlen2 : (embed2 cs2).length = cs2.length)
    (hinj : ∀ a, a < max cs1.length cs2.length → ∀ b, b < max cs1.length cs2.length →
      pointId u5 s a = pointId u5 s b → a = b) :
    (rag_upsert u5 embed2
        (rag_upsert u5 embed1 (emptyStore : Store V) ⟨cs1, s⟩).store ⟨cs2, s⟩).result =
      Except.ok ⟨cs2.length⟩ ∧
    livePoints s (rag_upsert u5 embed2
        (rag_upsert u5 embed1 (emptyStore : Store V) ⟨cs1, s⟩).store ⟨cs2, s⟩).store =
      max cs1.length cs2.length := by
  obtain ⟨hr1, hc1, hcol1, hmap1, hmem1⟩ :=
    rag_upsert_spec u5 embed1 (emptyStore : Store V) ⟨cs1, s⟩ h1 hlen1
  obtain ⟨hr2, hc2, hcol2, hmap2, hmem2⟩ :=
    rag_upsert_spec u5 embed2
      ((rag_upsert u5 embed1 (emptyStore : Store V) ⟨cs1, s⟩).store) ⟨cs2, s⟩ h2 hlen2
  have hnod1 : (upsertIds u5 s cs1.length).Nodup :=
    upsertIds_nodup u5 s cs1.length
      (fun a ha b hb => hinj a (by omega) b (by omega))
  have hnod2 : (upsertIds u5 s cs2.length).Nodup :=
    upsertIds_nodup u5 s cs2.length
      (fun a ha b hb => hinj a (by omega) b (by omega))
  have hmap1e :
      (rag_upsert u5 embed1 (emptyStore : Store V) ⟨cs1, s⟩).store.points.map
        (fun q => q.id) = upsertIds u5 s cs1.length := by
    rw [hmap1]
    rw [show (emptyStore : Store V).points.map (fun q => q.id) = [] from rfl]
    rw [foldIds_nodup _ _ hnod1]
    simp
  have hmap2e :
      (rag_upsert u5 embed2
        (rag_upsert u5 embed1 (emptyStore : Store V) ⟨cs1, s⟩).store ⟨cs2, s⟩).store.points.map
        (fun q => q.id) =
      upsertIds u5 s cs1.length ++
        (upsertIds u5 s cs2.length).filter
          (fun x => decide (x ∉ upsertIds u5 s cs1.length)) := by
    rw [hmap2, hmap1e, foldIds_nodup _ _ hnod2]
  have hfillen :
      ((upsertIds u5 s cs2.length).filter
        (fun x => decide (x ∉ upsertIds u5 s cs1.length))).length =
      cs2.length - cs1.length := by
    rw [show upsertIds u5 s cs2.length = (List.range cs2.length).map (pointId u5 s)
      from rfl]
    rw [List.filter_map, List.length_map]
    have hcong : (List.range cs2.length).filter
        ((fun x => decide (x ∉ upsertIds u5 s cs1.length)) ∘ (pointId u5 s)) =
        (List.range cs2.length).filter (fun i => decide (¬ i < cs1.length)) := by
      apply List.filter_congr
      intro i hi
      have hi2 := List.mem_range.mp hi
      have hmem := mem_upsertIds_iff u5 s cs1.length cs2.length i hi2 hinj
      simp only [Function.comp]
      rw [decide_eq_decide]
      exact not_congr hmem
    rw [hcong, length_filter_not_lt]
  have hall : ∀ p ∈ (rag_upsert u5 embed2
      (rag_upsert u5 embed1 (emptyStore : Store V) ⟨cs1, s⟩).store ⟨cs2, s⟩).store.points,
      sourceOf p = s := by
    intro p hp
    rcases hmem2 p hp with h | h
    · rcases hmem1 p h with h1m | h1m
      · simp [emptyStore] at h1m
      · exact h1m
    · exact h
  refine ⟨hr2, ?_⟩
  unfold livePoints
  rw [List.filter_eq_self.mpr (fun p hp => by
    simp only [decide_eq_true_eq]
    exact hall p hp)]
  have hlenpts :
      (rag_upsert u5 embed2
        (rag_upsert u5 embed1 (emptyStore : Store V) ⟨cs1, s⟩).store ⟨cs2, s⟩).store.points.length =
      (upsertIds u5 s cs1.length ++
        (upsertIds u5 s cs2.length).filter
          (fun x => decide (x ∉ upsertIds u5 s cs1.length))).length := by
    rw [← hmap2e, List.length_map]
  rw [hlenpts, List.length_append, hfillen]
  have hl1 : (upsertIds u5 s cs1.length).length = cs1.length := by
    simp [upsertIds]
  rw [hl1]
  omega

/-- C1 counterexample to the claim as stated: ingesting `"doc"` with two
chunks and re-ingesting it with one chunk leaves 2 live points for `"doc"`,
not the second ingestion's chunk count 1 — the stale point at index 1
survives. -/
theorem C1_counterexample :
    livePoints "doc"
      (rag_upsert (fun x => x) (fun cs => cs.map (fun _ => ()))
        (rag_upsert (fun x => x) (fun cs => cs.map (fun _ => ()))
          (emptyStore : Store Unit) ⟨["aa", "bb"], "doc"⟩).store
        ⟨["cc"], "doc"⟩).store = 2 ∧
    (["cc"] : List String).length = 1 ∧ (2 : Nat) ≠ 1 := by
  decide

/-- C1 witness: the amended theorem applied at a concrete input. -/
theorem C1_witness :
    (rag_upsert (fun x => x) (fun cs => cs.map (fun _ => ()))
        (rag_upsert (fun x => x) (fun cs => cs.map (fun _ => ()))
          (emptyStore : Store Unit) ⟨["aa", "bb"], "doc"⟩).store ⟨["cc"], "doc"⟩).result =
      Except.ok ⟨1⟩ ∧
    livePoints "doc"
      (rag_upsert (fun x => x) (fun cs => cs.map (fun _ => ()))
        (rag_upsert (fun x => x) (fun cs => cs.map (fun _ => ()))
          (emptyStore : Store Unit) ⟨["aa", "bb"], "doc"⟩).store ⟨["cc"], "doc"⟩).store =
      max 2 1 :=
  C1_reingestion_live_points (fun x => x) (fun cs => cs.map (fun _ => ()))
    (fun cs => cs.map (fun _ => ())) "doc" ["aa", "bb"] ["cc"]
    (by decide) (by decide) (by decide) (by decide) (by decide)

theorem upsert_ok_collections {st st2 : Store V} {ids : List String}
    {vectors : List V} {payloads : List Payload}
    (h : QdrantStorage.upsert st ids vectors payloads = Except.ok st2) :
    st2.collections = st.collections := by
  unfold QdrantStorage.upsert at h
  rcases hb : buildPoints ids vectors payloads with e | pts <;> rw [hb] at h
  · cases h
  · have h2 := Except.ok.inj h
    rw [← h2]

/-- C2: once the Step Executor has recorded the output of the
`"embed-and-upsert"` step for a run, re-invoking the same
`(run_id, step_name)` returns the recorded output, leaves the store
untouched and issues no further `embed_texts` or `QdrantStorage.upsert`
call (the call counters in the world state do not move). -/
theorem C2_memoized_step_no_calls {V : Type} (u5 : String → String)
    (embed_texts : List String → List V) (inp : RAGChunkAndSrc)
    (memo : StepMemo (Except PyError RAGUpsertResult)) (run_id : String)
    (st : Store V) (c : Calls) (o : Except PyError RAGUpsertResult)
    (h : lookupStep memo (run_id, "embed-and-upsert") = some o) :
    run_step memo run_id "embed-and-upsert"
      (upsertStepCompute u5 embed_texts inp) (st, c) = (o, (st, c), memo) := by
  unfold run_step
  rw [h]

/-- C2 witness: a recorded output is replayed verbatim at a concrete input. -/
theorem C2_witness :
    run_step [(("r1", "embed-and-upsert"), Except.ok ⟨3⟩)] "r1" "embed-and-upsert"
      (upsertStepCompute (fun x => x) (fun cs => cs.map (fun _ => ())) ⟨["a"], "d"⟩)
      ((emptyStore : Store Unit), ⟨0, 0⟩) =
      (Except.ok ⟨3⟩, ((emptyStore : Store Unit), ⟨0, 0⟩),
        [(("r1", "embed-and-upsert"), Except.ok ⟨3⟩)]) :=
  C2_memoized_step_no_calls (fun x => x) (fun cs => cs.map (fun _ => ()))
    ⟨["a"], "d"⟩ [(("r1", "embed-and-upsert"), Except.ok ⟨3⟩)] "r1"
    (emptyStore : Store Unit) ⟨0, 0⟩ (Except.ok ⟨3⟩) rfl

/-- C3: the id assigned to chunk index `i` is `u5 (source_id ++ ":" ++ i)`,
a deterministic function of `(source_id, i)` alone — two ingestions of the
same source with different chunk contents assign the same id at every common
position. -/
theorem C3_point_id_deterministic (u5 : String → String) (s : String)
    (cs1 cs2 : List String) (i : Nat) (h1 : i < cs1.length) (h2 : i < cs2.length) :
    (upsertIds u5 s cs1.length)[i]? = some (pointId u5 s i) ∧
    (upsertIds u5 s cs2.length)[i]? = some (pointId u5 s i) := by
  refine ⟨?_, ?_⟩
  · unfold upsertIds
    rw [List.getElem?_map, List.getElem?_range h1]
    rfl
  · unfold upsertIds
    rw [List.getElem?_map, List.getElem?_range h2]
    rfl

/-- C3 witness: concrete ingestions of lengths 2 and 3 agree on the id at
index 1. -/
theorem C3_witness :
    (upsertIds (fun x => x) "doc" (["aa", "bb"] : List String).length)[1]? =
      some (pointId (fun x => x) "doc" 1) ∧
    (upsertIds (fun x => x) "doc" (["c", "d", "e"] : List String).length)[1]? =
      some (pointId (fun x => x) "doc" 1) :=
  C3_point_id_deterministic (fun x => x) "doc" ["aa", "bb"] ["c", "d", "e"] 1
    (by decide) (by decide)

/-- C5 counterexample to the claim as stated: with `len(ids) = 1` but
`len(vectors) = len(payloads) = 2` the lengths are not all equal, yet the
upsert does not fail — it succeeds and writes one point. -/
theorem C5_counterexample :
    QdrantStorage.upsert (emptyStore : Store Unit) ["a"] [(), ()]
      [⟨some "s", some "t"⟩, ⟨some "s", some "t"⟩] =
      Except.ok ⟨[], [⟨"a", (), some ⟨some "s", some "t"⟩⟩]⟩ ∧
    (["a"] : List String).length ≠ ([(), ()] : List Unit).length :=
  ⟨rfl, by decide⟩

/-- C5 (amended): if `vectors` or `payloads` is shorter than `ids`, the
upsert raises `IndexError` while building the point list, before any write;
otherwise the call only ever reads the first `len(ids)` entries of `vectors`
and `payloads`, silently ignoring surplus entries instead of failing. -/
theorem C5_upsert_arity {V : Type} (st : Store V) (ids : List String)
    (vectors : List V) (payloads : List Payload) :
    (vectors.length < ids.length ∨ payloads.length < ids.length →
      QdrantStorage.upsert st ids vectors payloads = Except.error PyError.indexError) ∧
    QdrantStorage.upsert st ids vectors payloads =
      QdrantStorage.upsert st ids (vectors.take ids.length)
        (payloads.take ids.length) := by
  constructor
  · intro h
    unfold QdrantStorage.upsert
    rw [buildPoints_short ids vectors payloads h]
  · unfold QdrantStorage.upsert
    rw [← buildPoints_take]

/-- C5 witness: the amended behaviour at concrete inputs — short `vectors`
raise `IndexError`; surplus `vectors`/`payloads` entries are ignored. -/
theorem C5_witness :
    QdrantStorage.upsert (emptyStore : Store Unit) ["a", "b"] [()]
      [⟨some "s", some "t"⟩] = Except.error PyError.indexError ∧
    QdrantStorage.upsert (emptyStore : Store Unit) ["a"] [(), ()]
      [⟨some "s", some "t"⟩, ⟨some "s", some "t"⟩] =
      QdrantStorage.upsert (emptyStore : Store Unit) ["a"]
        ([(), ()].take (["a"] : List String).length)
        (([⟨some "s", some "t"⟩, ⟨some "s", some "t"⟩] : List Payload).take
          (["a"] : List String).length) :=
  ⟨(C5_upsert_arity (emptyStore : Store Unit) ["a", "b"] [()]
      [⟨some "s", some "t"⟩]).1 (by decide),
   (C5_upsert_arity (emptyStore : Store Unit) ["a"] [(), ()]
      [⟨some "s", some "t"⟩, ⟨some "s", some "t"⟩]).2⟩

/-- C6 counterexample to the claim as stated: a caller-supplied `top_k` of 0
is used as 0, not replaced by the default 5 — the code performs no
positivity check. -/
theorem C6_counterexample : topKOf (some 0) = 0 ∧ (0 : Int) ≠ 5 := by
  decide

/-- C6 (amended): `top_k` defaults to 5 only when the event field is
missing; any present value, including non-positive ones, is used exactly as
given. -/
theorem C6_top_k_default : topKOf none = 5 ∧ ∀ k : Int, topKOf (some k) = k :=
  ⟨rfl, fun k => rfl⟩

/-- C7: an ingest whose text yields no chunks completes successfully with
`inngested = 0`, issues no embedding call and no upsert, and leaves the store
(collections and points) unchanged. -/
theorem C7_empty_chunks_short_circuit {V : Type} (u5 : String → String)
    (embed_texts : List String → List V) (st : Store V) (inp : RAGChunkAndSrc)
    (h : inp.chunks = []) :
    rag_upsert u5 embed_texts st inp = ⟨Except.ok ⟨0⟩, st, ⟨0, 0⟩⟩ := by
  simp [rag_upsert, h]

/-- C7 witness: the empty ingest at a concrete store. -/
theorem C7_witness :
    rag_upsert (fun x => x) (fun cs => cs.map (fun _ => ()))
      (emptyStore : Store Unit) ⟨[], "doc"⟩ =
      ⟨Except.ok ⟨0⟩, (emptyStore : Store Unit), ⟨0, 0⟩⟩ :=
  C7_empty_chunks_short_circuit (fun x => x) (fun cs => cs.map (fun _ => ()))
    (emptyStore : Store Unit) ⟨[], "doc"⟩ rfl

theorem searchLoop_contexts_nil {V : Type} (results : List (StoredPoint V))
    (h : (searchLoop results).1 = []) : (searchLoop results).2 = [] := by
  rw [searchLoop_eq] at h ⊢
  have hfil : results.filter (fun r => decide (textOf r ≠ "")) = [] :=
    List.map_eq_nil_iff.mp h
  rw [hfil]
  rfl

/-- C8: when the embed-and-search step succeeds with zero contexts, the query
pipeline does not fail — it proceeds to generation with an empty context
block and returns the trimmed generated answer, empty sources and
`num_contexts = 0`. -/
theorem C8_zero_contexts_ok {V : Type} (embed_texts : List String → List V)
    (clientQuery : Store V → V → Int → List (StoredPoint V))
    (generate : String → String) (st : Store V) (question : String)
    (data_top_k : Option Int) (found : RAGSearchResult) (store2 : Store V)
    (hs : rag_search embed_texts clientQuery st question (topKOf data_top_k) =
      Except.ok (found, store2))
    (hc : found.contexts = []) :
    rag_query_pdf embed_texts clientQuery generate st question data_top_k =
      Except.ok (⟨(generate (userContent [] question)).trim, [], 0⟩, store2) := by
  have hsrc : found.sources = [] := by
    unfold rag_search at hs
    rcases hq : (embed_texts [question])[0]? with _ | qv <;> rw [hq] at hs
    · cases hs
    · have hpair := Except.ok.inj hs
      have hfound := congrArg Prod.fst hpair
      simp only at hfound
      rw [← hfound] at hc ⊢
      simp only at hc ⊢
      exact searchLoop_contexts_nil _ hc
  simp [rag_query_pdf, hs, hc, hsrc]

/-- C8 witness: a concrete query whose retrieval returns no points. -/
theorem C8_witness :
    rag_query_pdf (fun cs => cs.map (fun _ => ()))
      (fun _ _ _ => ([] : List (StoredPoint Unit)))
      (fun _ => " an answer ") (emptyStore : Store Unit) "What is X?" none =
      Except.ok (⟨" an answer ".trim, [], 0⟩,
        qdrantInit (emptyStore : Store Unit) "docs" 768) :=
  C8_zero_contexts_ok (fun cs => cs.map (fun _ => ()))
    (fun _ _ _ => ([] : List (StoredPoint Unit))) (fun _ => " an answer ")
    (emptyStore : Store Unit) "What is X?" none ⟨[], []⟩
    (qdrantInit (emptyStore : Store Unit) "docs" 768) rfl rfl

/-- C9: the search result loop silently drops every retrieved point whose
payload has a missing or empty `"text"` field: the contexts are exactly the
texts of the kept points (so possibly fewer than the points the store
returned), and every returned source is the source id of some kept point;
concretely, a two-point retrieval with one payload-less point yields a single
context. -/
theorem C9_search_filters {V : Type} (results : List (StoredPoint V)) :
    (searchLoop results).1 =
      (results.filter (fun r => decide (textOf r ≠ ""))).map textOf ∧
    (searchLoop results).1.length ≤ results.length ∧
    (∀ src ∈ (searchLoop results).2,
      ∃ r ∈ results, textOf r ≠ "" ∧ sourceOf r = src) ∧
    (searchLoop ([⟨"a", (), some ⟨some "s1", some "hello"⟩⟩,
      ⟨"b", (), none⟩] : List (StoredPoint Unit))).1.length = 1 := by
  refine ⟨?_, ?_, ?_, by decide⟩
  · rw [searchLoop_eq]
  · rw [searchLoop_eq]
    calc ((results.filter (fun r => decide (textOf r ≠ ""))).map textOf).length
        = (results.filter (fun r => decide (textOf r ≠ ""))).length :=
          List.length_map _ _
      _ ≤ results.length := List.length_filter_le _ _
  · intro src hsrc
    rw [searchLoop_eq] at hsrc
    rcases (mem_foldIds _ _).mp hsrc with h | h
    · cases h
    · rcases List.mem_map.mp h with ⟨r, hr, hrs⟩
      have hrf := List.mem_filter.mp hr
      exact ⟨r, hrf.1, by simpa using hrf.2, hrs⟩

/-- C9 witness: the filter characterisation at a concrete retrieval. -/
theorem C9_witness :
    (searchLoop ([⟨"a", (), some ⟨some "s1", some "hello"⟩⟩,
      ⟨"b", (), none⟩] : List (StoredPoint Unit))).1 =
      (([⟨"a", (), some ⟨some "s1", some "hello"⟩⟩,
        ⟨"b", (), none⟩] : List (StoredPoint Unit)).filter
          (fun r => decide (textOf r ≠ ""))).map textOf :=
  (C9_search_filters ([⟨"a", (), some ⟨some "s1", some "hello"⟩⟩,
    ⟨"b", (), none⟩] : List (StoredPoint Unit))).1

/-- C10: `QdrantStorage.__init__` creates the collection `"docs"` with
dimension 768 and cosine distance exactly when it is missing, leaves an
existing collection untouched, and is executed afresh on both the upsert
path and the search path — so after either pipeline's vector-store
operation, including a read-only search, the collection exists. -/
theorem C10_collection_init {V : Type} (st : Store V) (u5 : String → String)
    (embed_texts : List String → List V)
    (clientQuery : Store V → V → Int → List (StoredPoint V))
    (inp : RAGChunkAndSrc) (question : String) (top_k : Int)
    (found : RAGSearchResult) (store2 : Store V) :
    (hasCollection st "docs" = false →
      (qdrantInit st "docs" 768).collections =
        st.collections ++ [("docs", ⟨768, Distance.cosine⟩)]) ∧
    (hasCollection st "docs" = true → qdrantInit st "docs" 768 = st) ∧
    hasCollection (qdrantInit st "docs" 768) "docs" = true ∧
    (inp.chunks ≠ [] →
      hasCollection (rag_upsert u5 embed_texts st inp).store "docs" = true) ∧
    (rag_search embed_texts clientQuery st question top_k =
        Except.ok (found, store2) →
      hasCollection store2 "docs" = true) := by
  refine ⟨?_, ?_, hasCollection_qdrantInit st "docs" 768, ?_, ?_⟩
  · intro h
    simp [qdrantInit, h]
  · intro h
    simp [qdrantInit, h]
  · intro hne
    have hfalse : inp.chunks.isEmpty = false := List.isEmpty_eq_false.mpr hne
    rcases hres : QdrantStorage.upsert (qdrantInit st "docs" 768)
        (upsertIds u5 inp.source_id inp.chunks.length) (embed_texts inp.chunks)
        ((List.range inp.chunks.length).map (fun i =>
          ({ source := some inp.source_id, text := inp.chunks[i]? } : Payload)))
        with e | st2
    · simp only [rag_upsert, hfalse, Bool.false_eq_true, if_false, hres]
      exact hasCollection_qdrantInit st "docs" 768
    · simp only [rag_upsert, hfalse, Bool.false_eq_true, if_false, hres]
      rw [hasCollection_eq_of_collections "docs" (upsert_ok_collections hres)]
      exact hasCollection_qdrantInit st "docs" 768
  · intro hs
    unfold rag_search at hs
    rcases hq : (embed_texts [question])[0]? with _ | qv <;> rw [hq] at hs
    · cases hs
    · have hpair := Except.ok.inj hs
      have hstore := congrArg Prod.snd hpair
      simp only at hstore
      rw [← hstore]
      exact hasCollection_qdrantInit st "docs" 768

/-- C10 witness: collection creation observed on concrete runs of both
paths. -/
theorem C10_witness :
    (qdrantInit (emptyStore : Store Unit) "docs" 768).collections =
      (emptyStore : Store Unit).collections ++ [("docs", ⟨768, Distance.cosine⟩)] ∧
    hasCollection (rag_upsert (fun x => x) (fun cs => cs.map (fun _ => ()))
      (emptyStore : Store Unit) ⟨["aa"], "doc"⟩).store "docs" = true ∧
    hasCollection (qdrantInit (emptyStore : Store Unit) "docs" 768) "docs" = true :=
  ⟨(C10_collection_init (emptyStore : Store Unit) (fun x => x)
      (fun cs => cs.map (fun _ => ())) (fun _ _ _ => [])
      ⟨["aa"], "doc"⟩ "q" 5 ⟨[], []⟩ (emptyStore : Store Unit)).1 rfl,
   (C10_collection_init (emptyStore : Store Unit) (fun x => x)
      (fun cs => cs.map (fun _ => ())) (fun _ _ _ => [])
      ⟨["aa"], "doc"⟩ "q" 5 ⟨[], []⟩ (emptyStore : Store Unit)).2.2.2.1
      (by decide),
   (C10_collection_init (emptyStore : Store Unit) (fun x => x)
      (fun cs => cs.map (fun _ => ())) (fun _ _ _ => [])
      ⟨["aa"], "doc"⟩ "q" 5 ⟨[], []⟩ (emptyStore : Store Unit)).2.2.1⟩

end RagDocQA
